import Mathlib

/-!
Verification of `scripts/segmentation_script.py` (HybridNets repository).

The script is a batch image-segmentation pipeline: for each `.jpg` image in
an input directory it converts the image to HSV, thresholds it against two
fixed HSV color ranges (`cv2.inRange`), cleans each raw mask with a
morphological opening followed by a morphological closing (3×3 elliptical
structuring element, one iteration each), paints each cleaned mask with a
solid color, and writes the two results to the lane and road output
directories.

We embed the pipeline shallowly: images are 2-D grids of 3-channel pixels,
masks are 2-D grids of 8-bit intensities, the OpenCV primitives used by the
script (`inRange`, `morphologyEx` with `MORPH_OPEN`/`MORPH_CLOSE`,
`cvtColor BGR2HSV`) are given their documented per-pixel semantics, and the
driver's filesystem interaction is modelled by an abstract file system and
an event trace (directory creations, file writes, warnings).
-/

namespace Segmentation

/-- A 3-channel pixel sample (8-bit per channel in the source; values are
natural numbers here, the code only ever produces values ≤ 255). -/
abbrev Pixel : Type := Nat × Nat × Nat

/-- A 2-D grid of samples: height, width, and the sample at each
(row, column). Entries at coordinates outside `h × w` are irrelevant;
every operation of the script is stated on in-bounds coordinates. -/
structure Grid (α : Type) where
  h : Nat
  w : Nat
  pix : Nat → Nat → α

/-- `cv2.inRange` per-pixel test: 255 when every channel of `p` lies in the
closed interval `[lower, upper]` for its channel, else 0. -/
def inRangePix (p lower upper : Pixel) : Nat :=
  if lower.1 ≤ p.1 ∧ p.1 ≤ upper.1 ∧
     lower.2.1 ≤ p.2.1 ∧ p.2.1 ≤ upper.2.1 ∧
     lower.2.2 ≤ p.2.2 ∧ p.2.2 ≤ upper.2.2
  then 255 else 0

/-- `cv2.inRange(hsv_img, lower, upper)`: the pointwise closed-box
membership mask. -/
def inRange (img : Grid Pixel) (lower upper : Pixel) : Grid Nat :=
  ⟨img.h, img.w, fun r c => inRangePix (img.pix r c) lower upper⟩

/-- `cv2.getStructuringElement(cv2.MORPH_ELLIPSE, (3, 3))`: the 3×3 ellipse
is the cross `[[0,1,0],[1,1,1],[0,1,0]]`; listed as offsets from the anchor
(1, 1). -/
def ellipse3x3 : List (Int × Int) :=
  [(-1, 0), (0, -1), (0, 0), (0, 1), (1, 0)]

/-- `KERNEL = cv2.getStructuringElement(cv2.MORPH_ELLIPSE, (3, 3))`. -/
def KERNEL : List (Int × Int) := ellipse3x3

/-- Sample a mask at integer coordinates with a default for out-of-bounds
positions (OpenCV's morphological border handling: the border value is the
neutral element of the reduction, so out-of-bounds positions never affect
the result: 255 for erosion's min, 0 for dilation's max). -/
def getD (g : Grid Nat) (r c : Int) (d : Nat) : Nat :=
  if 0 ≤ r ∧ r < (g.h : Int) ∧ 0 ≤ c ∧ c < (g.w : Int)
  then g.pix r.toNat c.toNat else d

/-- `cv2.erode` with structuring element `k`: pointwise minimum over the
in-bounds positions covered by the element (8-bit values, so folding from
255 computes the minimum). -/
def erode (k : List (Int × Int)) (g : Grid Nat) : Grid Nat :=
  ⟨g.h, g.w, fun r c =>
    (k.map (fun o => getD g ((r : Int) + o.1) ((c : Int) + o.2) 255)).foldl min 255⟩

/-- `cv2.dilate` with structuring element `k`: pointwise maximum over the
in-bounds positions covered by the element. -/
def dilate (k : List (Int × Int)) (g : Grid Nat) : Grid Nat :=
  ⟨g.h, g.w, fun r c =>
    (k.map (fun o => getD g ((r : Int) + o.1) ((c : Int) + o.2) 0)).foldl max 0⟩

/-- `cv2.morphologyEx(·, cv2.MORPH_OPEN, k, iterations=n)`: `n` erosions
followed by `n` dilations. -/
def morphologyEx_open (k : List (Int × Int)) (iters : Nat) (g : Grid Nat) : Grid Nat :=
  (dilate k)^[iters] ((erode k)^[iters] g)

/-- `cv2.morphologyEx(·, cv2.MORPH_CLOSE, k, iterations=n)`: `n` dilations
followed by `n` erosions. -/
def morphologyEx_close (k : List (Int × Int)) (iters : Nat) (g : Grid Nat) : Grid Nat :=
  (erode k)^[iters] ((dilate k)^[iters] g)

/-- `make_mask(hsv_img, lower, upper)` from the script:
threshold with `cv2.inRange`, open, then close, each with `KERNEL`
and one iteration. -/
def make_mask (hsv_img : Grid Pixel) (lower upper : Pixel) : Grid Nat :=
  let raw := inRange hsv_img lower upper
  let opened := morphologyEx_open KERNEL 1 raw
  let closed := morphologyEx_close KERNEL 1 opened
  closed

/-- `save_mask_as_color(mask, color)` from the script: a fresh all-zeros
BGR image of the mask's dimensions, with `color` written at every position
where the mask value is strictly positive (`out[mask > 0] = color`). -/
def save_mask_as_color (mask : Grid Nat) (color : Pixel) : Grid Pixel :=
  ⟨mask.h, mask.w, fun r c => if mask.pix r c > 0 then color else (0, 0, 0)⟩

/-- Output color for lanes: `WHITE = (255, 255, 255)` (BGR). -/
def WHITE : Pixel := (255, 255, 255)

/-- Output color for roads: `GREY = (128, 128, 128)` (BGR). -/
def GREY : Pixel := (128, 128, 128)

/-- `LANE_LOWER = np.array([20, 40, 120])` (HSV). -/
def LANE_LOWER : Pixel := (20, 40, 120)

/-- `LANE_UPPER = np.array([35, 255, 255])` (HSV). -/
def LANE_UPPER : Pixel := (35, 255, 255)

/-- `ROAD_LOWER = np.array([125, 40, 120])` (HSV). -/
def ROAD_LOWER : Pixel := (125, 40, 120)

/-- `ROAD_UPPER = np.array([160, 255, 255])` (HSV). -/
def ROAD_UPPER : Pixel := (160, 255, 255)

/-- Integer division rounding to nearest (used by the 8-bit HSV
conversion formula). -/
def rdiv (a b : Int) : Int := Int.fdiv (2 * a + b) (2 * b)

/-- `cv2.cvtColor(img, cv2.COLOR_BGR2HSV)` per-pixel semantics on 8-bit
samples, per OpenCV's documented formula: `V = max(R,G,B)`;
`S = 255·(V−min)/V` (0 when `V = 0`); `H` from the hexagonal hue formula
scaled to `[0,179]` (degrees halved for the 8-bit range). -/
def bgr2hsvPix (p : Pixel) : Pixel :=
  let b : Int := p.1
  let g : Int := p.2.1
  let r : Int := p.2.2
  let v : Int := max r (max g b)
  let m : Int := min r (min g b)
  let s : Int := if v = 0 then 0 else rdiv (255 * (v - m)) v
  let hdeg : Int :=
    if v = m then 0
    else if v = r then rdiv (60 * (g - b)) (v - m)
    else if v = g then 120 + rdiv (60 * (b - r)) (v - m)
    else 240 + rdiv (60 * (r - g)) (v - m)
  let hpos : Int := if hdeg < 0 then hdeg + 360 else hdeg
  ((rdiv hpos 2).toNat, s.toNat, v.toNat)

/-- `cv2.cvtColor(img, cv2.COLOR_BGR2HSV)`: the pointwise conversion. -/
def cvtColor_BGR2HSV (img : Grid Pixel) : Grid Pixel :=
  ⟨img.h, img.w, fun r c => bgr2hsvPix (img.pix r c)⟩

/-- The lane output of `process_image` for a successfully loaded image:
`save_mask_as_color(make_mask(hsv, LANE_LOWER, LANE_UPPER), WHITE)`. -/
def lane_output (img : Grid Pixel) : Grid Pixel :=
  save_mask_as_color (make_mask (cvtColor_BGR2HSV img) LANE_LOWER LANE_UPPER) WHITE

/-- The road output of `process_image` for a successfully loaded image:
`save_mask_as_color(make_mask(hsv, ROAD_LOWER, ROAD_UPPER), GREY)`. -/
def road_output (img : Grid Pixel) : Grid Pixel :=
  save_mask_as_color (make_mask (cvtColor_BGR2HSV img) ROAD_LOWER ROAD_UPPER) GREY

/-- Observable filesystem effects of a run: directory creation
(`Path.mkdir(parents=True, exist_ok=True)`), an image file write
(`cv2.imwrite`), and a per-file warning printed on a failed load. -/
inductive Event where
  | mkdirP (path : String)
  | write (path : String) (img : Grid Pixel)
  | warn (path : String)

/-- Whether an event is a file write. -/
def Event.isWrite : Event → Bool
  | Event.write _ _ => true
  | _ => false

/-- Whether an event is a load-failure warning. -/
def Event.isWarn : Event → Bool
  | Event.warn _ => true
  | _ => false

/-- Number of output image files written in a trace. -/
def countWrites (evs : List Event) : Nat := evs.countP Event.isWrite

/-- Number of load-failure warnings in a trace. -/
def countWarns (evs : List Event) : Nat := evs.countP Event.isWarn

/-- `ensure_dirs()`: create both output directories. -/
def ensure_dirs : List Event :=
  [Event.mkdirP "output/lanes", Event.mkdirP "output/roads"]

/-- `process_image(img_path)`: load the image (`imread` models
`cv2.imread`, `none` on failure); on failure warn and stop; on success
convert to HSV, build and paint both masks, and write the two outputs
under the source's base filename. -/
def process_image (imread : String → Option (Grid Pixel)) (name : String) :
    List Event :=
  match imread name with
  | none => [Event.warn name]
  | some img =>
      [Event.write ("output/lanes/" ++ name) (lane_output img),
       Event.write ("output/roads/" ++ name) (road_output img)]

/-- The parts of the world `main()` observes: whether the input directory
exists, the names of the `.jpg` files directly inside it, and what each
file decodes to (`none` for an unreadable file). -/
structure FileSystem where
  inputDirExists : Bool
  jpgNames : List String
  imread : String → Option (Grid Pixel)

/-- `main()`: create the output directories (`ensure_dirs()`, so every
branch's trace starts with the two directory creations), fail with status
1 when the input directory is missing, otherwise sort the `.jpg` names
(`sorted(INPUT_DIR.glob("*.jpg"))`), return status 0 early when the list
is empty, and otherwise process every image in order and return status 0.
Result: (exit status, event trace). -/
def main_run (fs : FileSystem) : Nat × List Event :=
  if fs.inputDirExists = false then (1, ensure_dirs)
  else if (fs.jpgNames.mergeSort (fun a b => decide (a ≤ b))).isEmpty then
    (0, ensure_dirs)
  else
    (0, ensure_dirs ++
      ((fs.jpgNames.mergeSort (fun a b => decide (a ≤ b))).map
        (process_image fs.imread)).flatten)

/-! ### Generic fold lemmas for the min/max reductions of erosion and dilation -/

theorem foldl_min_le_init (l : List Nat) (a : Nat) : l.foldl min a ≤ a := by
  induction l generalizing a with
  | nil => exact Nat.le_refl a
  | cons y l ih =>
      exact Nat.le_trans (ih (min a y)) (Nat.min_le_left a y)

theorem foldl_min_le_of_mem {l : List Nat} {x : Nat} (a : Nat) (hx : x ∈ l) :
    l.foldl min a ≤ x := by
  induction l generalizing a with
  | nil => cases hx
  | cons y l ih =>
      rcases List.mem_cons.mp hx with h | h
      · subst h
        exact Nat.le_trans (foldl_min_le_init l (min a x)) (Nat.min_le_right a x)
      · exact ih (min a y) h

theorem foldl_min_pos {l : List Nat} {a : Nat} (ha : 0 < a)
    (h : ∀ x ∈ l, 0 < x) : 0 < l.foldl min a := by
  induction l generalizing a with
  | nil => exact ha
  | cons y l ih =>
      exact ih (Nat.lt_min.mpr ⟨ha, h y (List.mem_cons_self y l)⟩)
        (fun x hx => h x (List.mem_cons_of_mem y hx))

theorem le_foldl_max_init (l : List Nat) (a : Nat) : a ≤ l.foldl max a := by
  induction l generalizing a with
  | nil => exact Nat.le_refl a
  | cons y l ih => exact Nat.le_trans (Nat.le_max_left a y) (ih (max a y))

theorem le_foldl_max_of_mem {l : List Nat} {x : Nat} (a : Nat) (hx : x ∈ l) :
    x ≤ l.foldl max a := by
  induction l generalizing a with
  | nil => cases hx
  | cons y l ih =>
      rcases List.mem_cons.mp hx with h | h
      · subst h
        exact Nat.le_trans (Nat.le_max_right a x) (le_foldl_max_init l (max a x))
      · exact ih (max a y) h

theorem foldl_max_pos_elim {l : List Nat} {a : Nat} (h : 0 < l.foldl max a) :
    0 < a ∨ ∃ x ∈ l, 0 < x := by
  induction l generalizing a with
  | nil => exact Or.inl h
  | cons y l ih =>
      rcases ih h with h2 | ⟨x, hx, hxp⟩
      · rcases lt_max_iff.mp h2 with h3 | h3
        · exact Or.inl h3
        · exact Or.inr ⟨y, List.mem_cons_self y l, h3⟩
      · exact Or.inr ⟨x, List.mem_cons_of_mem y hx, hxp⟩

/-! ### Facts about the structuring element and grid sampling -/

theorem kernel_symm {o : Int × Int} (ho : o ∈ KERNEL) :
    (-o.1, -o.2) ∈ KERNEL := by
  fin_cases ho <;> decide

theorem getD_pos_elim {g : Grid Nat} {r c : Int} (h : 0 < getD g r c 0) :
    0 ≤ r ∧ r < (g.h : Int) ∧ 0 ≤ c ∧ c < (g.w : Int) ∧
      0 < g.pix r.toNat c.toNat := by
  by_cases hb : 0 ≤ r ∧ r < (g.h : Int) ∧ 0 ≤ c ∧ c < (g.w : Int)
  · refine ⟨hb.1, hb.2.1, hb.2.2.1, hb.2.2.2, ?_⟩
    simpa [getD, hb] using h
  · simp [getD, hb] at h

theorem getD_of_inBounds {g : Grid Nat} {r c : Int}
    (h : 0 ≤ r ∧ r < (g.h : Int) ∧ 0 ≤ c ∧ c < (g.w : Int)) (d : Nat) :
    getD g r c d = g.pix r.toNat c.toNat := by
  simp [getD, h]

/-! ### Sample inputs used by the witness theorems -/

/-- A 2×2 all-on mask. -/
def maskAllOn : Grid Nat := ⟨2, 2, fun _ _ => 255⟩

/-- A 2×2 mask whose only nonzero value is 7 (neither 0 nor 255). -/
def maskSeven : Grid Nat := ⟨2, 2, fun r c => if r = 0 ∧ c = 0 then 7 else 0⟩

/-- A 3×4 HSV image whose every pixel is (25, 100, 200): strictly inside
the lane range on every channel. -/
def hsvLaneImg : Grid Pixel := ⟨3, 4, fun _ _ => (25, 100, 200)⟩

/-- A 1×1 BGR image. -/
def imgSample : Grid Pixel := ⟨1, 1, fun _ _ => (200, 100, 25)⟩

/-- A sample world: the input directory exists and holds one readable
`.jpg`. -/
def fsSample : FileSystem := ⟨true, ["a.jpg"], fun _ => some imgSample⟩

/-- A sample world whose input directory is missing. -/
def fsNoDir : FileSystem := ⟨false, [], fun _ => none⟩

/-! ### Claim theorems -/

/-- C1: the pre-morphology mask (`cv2.inRange` inside `make_mask`) marks a
pixel on (value 255) iff every channel of the HSV pixel lies in the
inclusive `[lower, upper]` bound for its channel; a pixel strictly inside
the range on all channels is on, and a pixel strictly outside on any
channel is off (value 0). -/
theorem inRange_on_iff_within_bounds (img : Grid Pixel) (lower upper : Pixel)
    (r c : Nat) :
    ((inRange img lower upper).pix r c = 255 ↔
       (lower.1 ≤ (img.pix r c).1 ∧ (img.pix r c).1 ≤ upper.1 ∧
        lower.2.1 ≤ (img.pix r c).2.1 ∧ (img.pix r c).2.1 ≤ upper.2.1 ∧
        lower.2.2 ≤ (img.pix r c).2.2 ∧ (img.pix r c).2.2 ≤ upper.2.2)) ∧
    ((lower.1 < (img.pix r c).1 ∧ (img.pix r c).1 < upper.1 ∧
      lower.2.1 < (img.pix r c).2.1 ∧ (img.pix r c).2.1 < upper.2.1 ∧
      lower.2.2 < (img.pix r c).2.2 ∧ (img.pix r c).2.2 < upper.2.2) →
       (inRange img lower upper).pix r c = 255) ∧
    (((img.pix r c).1 < lower.1 ∨ upper.1 < (img.pix r c).1 ∨
      (img.pix r c).2.1 < lower.2.1 ∨ upper.2.1 < (img.pix r c).2.1 ∨
      (img.pix r c).2.2 < lower.2.2 ∨ upper.2.2 < (img.pix r c).2.2) →
       (inRange img lower upper).pix r c = 0) := by
  simp only [inRange, inRangePix]
  refine ⟨?_, ?_, ?_⟩ <;> split <;> simp_all <;> omega

/-- C1 witness: on the constant HSV image (25, 100, 200) with the lane
range, the pixel is strictly inside the bounds and the pre-morphology mask
value at (0, 0) is 255. -/
theorem inRange_on_iff_within_bounds_witness :
    (inRange hsvLaneImg LANE_LOWER LANE_UPPER).pix 0 0 = 255 :=
  (inRange_on_iff_within_bounds hsvLaneImg LANE_LOWER LANE_UPPER 0 0).2.1
    (by decide)

/-- C2: `make_mask` post-processes the raw threshold mask with exactly one
morphological opening followed by exactly one morphological closing, both
with the shared `KERNEL` and a single iteration, where `KERNEL` is the 3×3
elliptical structuring element, an opening with one iteration is one
erosion then one dilation, and a closing is one dilation then one
erosion. -/
theorem make_mask_open_then_close (hsv : Grid Pixel) (lower upper : Pixel) :
    make_mask hsv lower upper =
      morphologyEx_close KERNEL 1
        (morphologyEx_open KERNEL 1 (inRange hsv lower upper)) ∧
    (∀ g : Grid Nat, morphologyEx_open KERNEL 1 g = dilate KERNEL (erode KERNEL g)) ∧
    (∀ g : Grid Nat, morphologyEx_close KERNEL 1 g = erode KERNEL (dilate KERNEL g)) ∧
    KERNEL = ellipse3x3 :=
  ⟨rfl, fun _ => rfl, fun _ => rfl, rfl⟩

/-- C3: the painter returns an image of the mask's dimensions in which
every on pixel is exactly the given color, every off pixel is exactly
black, and every pixel is one of those two values. -/
theorem save_mask_as_color_spec (mask : Grid Nat) (color : Pixel) (r c : Nat) :
    (save_mask_as_color mask color).h = mask.h ∧
    (save_mask_as_color mask color).w = mask.w ∧
    (mask.pix r c > 0 → (save_mask_as_color mask color).pix r c = color) ∧
    (¬ mask.pix r c > 0 →
      (save_mask_as_color mask color).pix r c = (0, 0, 0)) ∧
    ((save_mask_as_color mask color).pix r c = color ∨
     (save_mask_as_color mask color).pix r c = (0, 0, 0)) := by
  refine ⟨rfl, rfl, ?_, ?_, ?_⟩ <;> simp only [save_mask_as_color] <;> split <;>
    simp_all

/-- C3 witness: on the all-on 2×2 mask painted white, pixel (1, 1) is on
and painted exactly white. -/
theorem save_mask_as_color_spec_witness :
    (save_mask_as_color maskAllOn WHITE).pix 1 1 = WHITE :=
  (save_mask_as_color_spec maskAllOn WHITE 1 1).2.2.1 (by decide)

/-- C10: the painter's on-test is `mask value > 0`: any nonzero mask value
is painted with the on color, and a pixel is left black exactly when its
mask value is zero. -/
theorem painter_on_means_pos (mask : Grid Nat) (color : Pixel) (r c : Nat) :
    (mask.pix r c ≠ 0 → (save_mask_as_color mask color).pix r c = color) ∧
    (mask.pix r c = 0 →
      (save_mask_as_color mask color).pix r c = (0, 0, 0)) := by
  constructor <;> intro h <;> simp [save_mask_as_color, h, Nat.pos_of_ne_zero]

/-- C10 witness: a mask value of 7 (nonzero but not 255) is painted with
the on color, and a zero mask value is left black. -/
theorem painter_on_means_pos_witness :
    (save_mask_as_color maskSeven WHITE).pix 0 0 = WHITE ∧
    (save_mask_as_color maskSeven WHITE).pix 1 1 = (0, 0, 0) :=
  ⟨(painter_on_means_pos maskSeven WHITE 0 0).1 (by decide),
   (painter_on_means_pos maskSeven WHITE 1 1).2 (by decide)⟩

/-! Dimension preservation, one operation at a time. -/

theorem erode_dims (k : List (Int × Int)) (g : Grid Nat) :
    (erode k g).h = g.h ∧ (erode k g).w = g.w := ⟨rfl, rfl⟩

theorem dilate_dims (k : List (Int × Int)) (g : Grid Nat) :
    (dilate k g).h = g.h ∧ (dilate k g).w = g.w := ⟨rfl, rfl⟩

theorem morphologyEx_open_dims (k : List (Int × Int)) (g : Grid Nat) :
    (morphologyEx_open k 1 g).h = g.h ∧ (morphologyEx_open k 1 g).w = g.w := by
  have h1 : morphologyEx_open k 1 g = dilate k (erode k g) := rfl
  rw [h1, (dilate_dims k _).1, (dilate_dims k _).2,
    (erode_dims k g).1, (erode_dims k g).2]
  exact ⟨rfl, rfl⟩

theorem morphologyEx_close_dims (k : List (Int × Int)) (g : Grid Nat) :
    (morphologyEx_close k 1 g).h = g.h ∧ (morphologyEx_close k 1 g).w = g.w := by
  have h1 : morphologyEx_close k 1 g = erode k (dilate k g) := rfl
  rw [h1, (erode_dims k _).1, (erode_dims k _).2,
    (dilate_dims k g).1, (dilate_dims k g).2]
  exact ⟨rfl, rfl⟩

theorem make_mask_dims (hsv : Grid Pixel) (lower upper : Pixel) :
    (make_mask hsv lower upper).h = hsv.h ∧
    (make_mask hsv lower upper).w = hsv.w := by
  have h1 : make_mask hsv lower upper =
      morphologyEx_close KERNEL 1
        (morphologyEx_open KERNEL 1 (inRange hsv lower upper)) := rfl
  rw [h1, (morphologyEx_close_dims KERNEL _).1, (morphologyEx_close_dims KERNEL _).2,
    (morphologyEx_open_dims KERNEL _).1, (morphologyEx_open_dims KERNEL _).2]
  exact ⟨rfl, rfl⟩

theorem lane_output_dims (img : Grid Pixel) :
    (lane_output img).h = img.h ∧ (lane_output img).w = img.w := by
  have h1 : lane_output img =
      save_mask_as_color (make_mask (cvtColor_BGR2HSV img) LANE_LOWER LANE_UPPER)
        WHITE := rfl
  have h2 : ∀ (m : Grid Nat) (c : Pixel), (save_mask_as_color m c).h = m.h ∧
      (save_mask_as_color m c).w = m.w := fun _ _ => ⟨rfl, rfl⟩
  rw [h1, (h2 _ _).1, (h2 _ _).2, (make_mask_dims _ _ _).1, (make_mask_dims _ _ _).2]
  exact ⟨rfl, rfl⟩

theorem road_output_dims (img : Grid Pixel) :
    (road_output img).h = img.h ∧ (road_output img).w = img.w := by
  have h1 : road_output img =
      save_mask_as_color (make_mask (cvtColor_BGR2HSV img) ROAD_LOWER ROAD_UPPER)
        GREY := rfl
  have h2 : ∀ (m : Grid Nat) (c : Pixel), (save_mask_as_color m c).h = m.h ∧
      (save_mask_as_color m c).w = m.w := fun _ _ => ⟨rfl, rfl⟩
  rw [h1, (h2 _ _).1, (h2 _ _).2, (make_mask_dims _ _ _).1, (make_mask_dims _ _ _).2]
  exact ⟨rfl, rfl⟩

/-- C6: for a successfully loaded source image, both outputs have exactly
the source's height and width, and the dimensions are preserved at every
stage: color conversion, thresholding, morphology, and painting. -/
theorem output_dims_eq_source (img : Grid Pixel) (lower upper : Pixel) :
    (lane_output img).h = img.h ∧ (lane_output img).w = img.w ∧
    (road_output img).h = img.h ∧ (road_output img).w = img.w ∧
    (cvtColor_BGR2HSV img).h = img.h ∧ (cvtColor_BGR2HSV img).w = img.w ∧
    (inRange (cvtColor_BGR2HSV img) lower upper).h = img.h ∧
    (inRange (cvtColor_BGR2HSV img) lower upper).w = img.w ∧
    (morphologyEx_open KERNEL 1 (inRange (cvtColor_BGR2HSV img) lower upper)).h
      = img.h ∧
    (morphologyEx_open KERNEL 1 (inRange (cvtColor_BGR2HSV img) lower upper)).w
      = img.w ∧
    (make_mask (cvtColor_BGR2HSV img) lower upper).h = img.h ∧
    (make_mask (cvtColor_BGR2HSV img) lower upper).w = img.w :=
  ⟨(lane_output_dims img).1, (lane_output_dims img).2,
   (road_output_dims img).1, (road_output_dims img).2,
   rfl, rfl, rfl, rfl,
   (morphologyEx_open_dims KERNEL _).1, (morphologyEx_open_dims KERNEL _).2,
   (make_mask_dims _ _ _).1, (make_mask_dims _ _ _).2⟩

/-- C7: the pipeline is deterministic: the status and the entire event
trace — in particular every written output image — are fully determined by
the observed input state (input-directory existence, file listing, file
contents). Two runs over an unchanged input produce identical outputs. -/
theorem pipeline_deterministic (fs fs' : FileSystem)
    (h1 : fs.inputDirExists = fs'.inputDirExists)
    (h2 : fs.jpgNames = fs'.jpgNames)
    (h3 : ∀ n, fs.imread n = fs'.imread n) :
    main_run fs = main_run fs' := by
  obtain ⟨e, l, im⟩ := fs
  obtain ⟨e', l', im'⟩ := fs'
  simp only at h1 h2 h3
  subst h1
  subst h2
  have him : im = im' := funext h3
  subst him
  rfl

/-- C7 witness: two runs over the sample world coincide. -/
theorem pipeline_deterministic_witness : main_run fsSample = main_run fsSample :=
  pipeline_deterministic fsSample fsSample rfl rfl (fun _ => rfl)

/-! Positivity introduction/elimination for single erosions and
dilations, used for the morphology laws. -/

theorem dilate_pos_elim {k : List (Int × Int)} {g : Grid Nat} {r c : Nat}
    (h : 0 < (dilate k g).pix r c) :
    ∃ o ∈ k, 0 ≤ (r : Int) + o.1 ∧ (r : Int) + o.1 < (g.h : Int) ∧
      0 ≤ (c : Int) + o.2 ∧ (c : Int) + o.2 < (g.w : Int) ∧
      0 < g.pix ((r : Int) + o.1).toNat ((c : Int) + o.2).toNat := by
  have h' : 0 < (k.map
      (fun o => getD g ((r : Int) + o.1) ((c : Int) + o.2) 0)).foldl max 0 := h
  rcases foldl_max_pos_elim h' with h0 | ⟨x, hx, hxp⟩
  · omega
  · rcases List.mem_map.mp hx with ⟨o, ho, rfl⟩
    obtain ⟨a1, a2, a3, a4, a5⟩ := getD_pos_elim hxp
    exact ⟨o, ho, a1, a2, a3, a4, a5⟩

theorem dilate_pos_intro {k : List (Int × Int)} {g : Grid Nat} {r c : Nat}
    {o : Int × Int} (ho : o ∈ k)
    (b1 : 0 ≤ (r : Int) + o.1) (b2 : (r : Int) + o.1 < (g.h : Int))
    (b3 : 0 ≤ (c : Int) + o.2) (b4 : (c : Int) + o.2 < (g.w : Int))
    (hpos : 0 < g.pix ((r : Int) + o.1).toNat ((c : Int) + o.2).toNat) :
    0 < (dilate k g).pix r c := by
  have hx : getD g ((r : Int) + o.1) ((c : Int) + o.2) 0 ∈
      k.map (fun o => getD g ((r : Int) + o.1) ((c : Int) + o.2) 0) :=
    List.mem_map_of_mem _ ho
  have hle := le_foldl_max_of_mem 0 hx
  rw [getD_of_inBounds ⟨b1, b2, b3, b4⟩] at hle
  show 0 < (k.map
      (fun o => getD g ((r : Int) + o.1) ((c : Int) + o.2) 0)).foldl max 0
  exact Nat.lt_of_lt_of_le hpos hle

theorem erode_pos_at {k : List (Int × Int)} {g : Grid Nat} {r c : Nat}
    (h : 0 < (erode k g).pix r c) {o : Int × Int} (ho : o ∈ k)
    (b1 : 0 ≤ (r : Int) + o.1) (b2 : (r : Int) + o.1 < (g.h : Int))
    (b3 : 0 ≤ (c : Int) + o.2) (b4 : (c : Int) + o.2 < (g.w : Int)) :
    0 < g.pix ((r : Int) + o.1).toNat ((c : Int) + o.2).toNat := by
  have hx : getD g ((r : Int) + o.1) ((c : Int) + o.2) 255 ∈
      k.map (fun o => getD g ((r : Int) + o.1) ((c : Int) + o.2) 255) :=
    List.mem_map_of_mem _ ho
  have hle := foldl_min_le_of_mem 255 hx
  rw [getD_of_inBounds ⟨b1, b2, b3, b4⟩] at hle
  have h' : 0 < (k.map
      (fun o => getD g ((r : Int) + o.1) ((c : Int) + o.2) 255)).foldl min 255 := h
  exact Nat.lt_of_lt_of_le h' hle

theorem erode_pos_intro {k : List (Int × Int)} {g : Grid Nat} {r c : Nat}
    (h : ∀ o ∈ k, 0 ≤ (r : Int) + o.1 → (r : Int) + o.1 < (g.h : Int) →
      0 ≤ (c : Int) + o.2 → (c : Int) + o.2 < (g.w : Int) →
      0 < g.pix ((r : Int) + o.1).toNat ((c : Int) + o.2).toNat) :
    0 < (erode k g).pix r c := by
  show 0 < (k.map
      (fun o => getD g ((r : Int) + o.1) ((c : Int) + o.2) 255)).foldl min 255
  refine foldl_min_pos (by omega) ?_
  intro x hx
  rcases List.mem_map.mp hx with ⟨o, ho, rfl⟩
  by_cases hb : 0 ≤ (r : Int) + o.1 ∧ (r : Int) + o.1 < (g.h : Int) ∧
      0 ≤ (c : Int) + o.2 ∧ (c : Int) + o.2 < (g.w : Int)
  · rw [getD_of_inBounds hb]
    exact h o ho hb.1 hb.2.1 hb.2.2.1 hb.2.2.2
  · simp only [getD, if_neg hb]
    omega

/-- C8: morphology shrink/grow laws for the mask cleanup in `make_mask`:
the opening is anti-extensive over the raw mask (it never turns on a pixel
that was off in the raw mask), and the subsequent closing is extensive over
the opened mask (every pixel on after opening is still on after closing). -/
theorem opening_shrinks_closing_grows (m : Grid Nat) (r c : Nat)
    (hr : r < m.h) (hc : c < m.w) :
    (0 < (morphologyEx_open KERNEL 1 m).pix r c → 0 < m.pix r c) ∧
    (0 < (morphologyEx_open KERNEL 1 m).pix r c →
      0 < (morphologyEx_close KERNEL 1 (morphologyEx_open KERNEL 1 m)).pix r c) := by
  have e1 : morphologyEx_open KERNEL 1 m = dilate KERNEL (erode KERNEL m) := rfl
  constructor
  · intro h
    rw [e1] at h
    obtain ⟨o, ho, b1, b2, b3, b4, hpos⟩ := dilate_pos_elim h
    rw [(erode_dims KERNEL m).1] at b2
    rw [(erode_dims KERNEL m).2] at b4
    have hsym := kernel_symm ho
    have key := erode_pos_at hpos hsym
      (by simp only; omega) (by simp only [(erode_dims KERNEL m).1]; omega)
      (by simp only; omega) (by simp only [(erode_dims KERNEL m).2]; omega)
    have hr' : (((((r : Int) + o.1).toNat : Nat) : Int) + (-o.1, -o.2).1).toNat
        = r := by simp only; omega
    have hc' : (((((c : Int) + o.2).toNat : Nat) : Int) + (-o.1, -o.2).2).toNat
        = c := by simp only; omega
    rw [hr', hc'] at key
    exact key
  · intro h
    rw [e1] at h
    have e2 : morphologyEx_close KERNEL 1 (morphologyEx_open KERNEL 1 m) =
        erode KERNEL (dilate KERNEL (dilate KERNEL (erode KERNEL m))) := rfl
    rw [e2]
    apply erode_pos_intro
    intro o ho b1 b2 b3 b4
    rw [(dilate_dims KERNEL _).1, (dilate_dims KERNEL _).1,
      (erode_dims KERNEL m).1] at b2
    rw [(dilate_dims KERNEL _).2, (dilate_dims KERNEL _).2,
      (erode_dims KERNEL m).2] at b4
    have hsym := kernel_symm ho
    refine dilate_pos_intro hsym (by simp only; omega)
      (by simp only [(dilate_dims KERNEL _).1, (erode_dims KERNEL m).1]; omega)
      (by simp only; omega)
      (by simp only [(dilate_dims KERNEL _).2, (erode_dims KERNEL m).2]; omega) ?_
    have hr' : (((((r : Int) + o.1).toNat : Nat) : Int) + (-o.1, -o.2).1).toNat
        = r := by simp only; omega
    have hc' : (((((c : Int) + o.2).toNat : Nat) : Int) + (-o.1, -o.2).2).toNat
        = c := by simp only; omega
    rw [hr', hc']
    exact h

/-- C8 witness: on the all-on 2×2 mask, pixel (0, 0) survives opening, is
on in the raw mask, and is still on after the closing. -/
theorem opening_shrinks_closing_grows_witness :
    0 < maskAllOn.pix 0 0 ∧
    0 < (morphologyEx_close KERNEL 1
          (morphologyEx_open KERNEL 1 maskAllOn)).pix 0 0 :=
  ⟨(opening_shrinks_closing_grows maskAllOn 0 0 (by decide) (by decide)).1
     (by decide),
   (opening_shrinks_closing_grows maskAllOn 0 0 (by decide) (by decide)).2
     (by decide)⟩

/-! Counting writes and warnings across a batch. -/

theorem batch_counts (im : String → Option (Grid Pixel)) (l : List String) :
    countWrites ((l.map (process_image im)).flatten) =
      2 * l.countP (fun n => (im n).isSome) ∧
    countWarns ((l.map (process_image im)).flatten) =
      l.countP (fun n => (im n).isNone) := by
  induction l with
  | nil => exact ⟨rfl, rfl⟩
  | cons n l ih =>
      have hflat : ((n :: l).map (process_image im)).flatten =
          process_image im n ++ (l.map (process_image im)).flatten := by
        simp
      constructor
      · rw [countWrites, hflat, List.countP_append]
        cases him : im n <;>
          simp_all [process_image, countWrites, Event.isWrite, Nat.mul_add] <;>
          omega
      · rw [countWarns, hflat, List.countP_append]
        cases him : im n <;>
          simp_all [process_image, countWarns, Event.isWarn] <;>
          omega

theorem main_run_nodir (fs : FileSystem) (h : fs.inputDirExists = false) :
    main_run fs = (1, ensure_dirs) := by
  unfold main_run
  rw [h, if_pos rfl]

theorem main_run_trace (fs : FileSystem) (h : fs.inputDirExists = true) :
    main_run fs = (0, ensure_dirs ++
      ((fs.jpgNames.mergeSort (fun a b => decide (a ≤ b))).map
        (process_image fs.imread)).flatten) := by
  unfold main_run
  rw [h, if_neg (by simp)]
  by_cases hempty : fs.jpgNames = []
  · rw [hempty, List.mergeSort_nil]
    rfl
  · have hne : ¬ ((fs.jpgNames.mergeSort (fun a b => decide (a ≤ b))).isEmpty
        = true) := by
      rw [List.isEmpty_iff]
      intro hnil
      have hp := List.mergeSort_perm fs.jpgNames (fun a b => decide (a ≤ b))
      rw [hnil] at hp
      exact hempty hp.symm.eq_nil
    rw [if_neg hne]

theorem main_run_counts (fs : FileSystem) (h : fs.inputDirExists = true) :
    countWrites (main_run fs).2 =
      2 * fs.jpgNames.countP (fun n => (fs.imread n).isSome) ∧
    countWarns (main_run fs).2 =
      fs.jpgNames.countP (fun n => (fs.imread n).isNone) := by
  rw [main_run_trace fs h]
  have hperm := List.mergeSort_perm fs.jpgNames (fun a b => decide (a ≤ b))
  have hb := batch_counts fs.imread
    (fs.jpgNames.mergeSort (fun a b => decide (a ≤ b)))
  constructor
  · rw [countWrites, List.countP_append]
    have h0 : ensure_dirs.countP Event.isWrite = 0 := rfl
    rw [h0, Nat.zero_add]
    rw [show (((fs.jpgNames.mergeSort (fun a b => decide (a ≤ b))).map
        (process_image fs.imread)).flatten.countP Event.isWrite) =
        countWrites (((fs.jpgNames.mergeSort (fun a b => decide (a ≤ b))).map
        (process_image fs.imread)).flatten) from rfl, hb.1,
      hperm.countP_eq (fun n => (fs.imread n).isSome)]
  · rw [countWarns, List.countP_append]
    have h0 : ensure_dirs.countP Event.isWarn = 0 := rfl
    rw [h0, Nat.zero_add]
    rw [show (((fs.jpgNames.mergeSort (fun a b => decide (a ≤ b))).map
        (process_image fs.imread)).flatten.countP Event.isWarn) =
        countWarns (((fs.jpgNames.mergeSort (fun a b => decide (a ≤ b))).map
        (process_image fs.imread)).flatten) from rfl, hb.2,
      hperm.countP_eq (fun n => (fs.imread n).isNone)]

/-- C4: the batch driver returns the distinct non-zero status 1 exactly
when the input directory is missing, and then writes no output files; it
returns the success status 0 with zero writes when the directory exists
but holds no `.jpg` files; and it returns 0 whenever the directory exists,
however many individual images fail to load. -/
theorem main_run_status (fs : FileSystem) :
    ((main_run fs).1 ≠ 0 ↔ fs.inputDirExists = false) ∧
    (fs.inputDirExists = false →
      (main_run fs).1 = 1 ∧ countWrites (main_run fs).2 = 0) ∧
    (fs.inputDirExists = true → (main_run fs).1 = 0) ∧
    (fs.inputDirExists = true → fs.jpgNames = [] →
      (main_run fs).1 = 0 ∧ countWrites (main_run fs).2 = 0) := by
  cases hex : fs.inputDirExists
  · have hm := main_run_nodir fs hex
    refine ⟨?_, fun _ => ?_, ?_, ?_⟩
    · rw [hm]
      simp
    · rw [hm]
      exact ⟨rfl, rfl⟩
    · intro h
      simp at h
    · intro h
      simp at h
  · have hm := main_run_trace fs hex
    refine ⟨?_, ?_, fun _ => ?_, fun _ hempty => ⟨?_, ?_⟩⟩
    · rw [hm]
      simp
    · intro h
      simp at h
    · rw [hm]
    · rw [hm]
    · rw [(main_run_counts fs hex).1, hempty]
      rfl

/-- C4 witness: on the sample world with no input directory the run
reports status 1 and zero writes; on the sample world with one readable
file it reports status 0. -/
theorem main_run_status_witness :
    ((main_run fsNoDir).1 = 1 ∧ countWrites (main_run fsNoDir).2 = 0) ∧
    (main_run fsSample).1 = 0 :=
  ⟨(main_run_status fsNoDir).2.1 rfl,
   (main_run_status fsSample).2.2.1 rfl⟩

/-- C5: a per-image run with a failed load produces exactly one warning
and zero writes and does not stop the batch; a successful load produces
exactly the two output writes (lane and road). Over a whole batch with the
input directory present, the run succeeds with exactly two writes per
readable file and one warning per unreadable file. -/
theorem per_image_writes_and_warnings (fs : FileSystem)
    (hex : fs.inputDirExists = true) :
    (∀ name, fs.imread name = none →
      process_image fs.imread name = [Event.warn name]) ∧
    (∀ name img, fs.imread name = some img →
      process_image fs.imread name =
        [Event.write ("output/lanes/" ++ name) (lane_output img),
         Event.write ("output/roads/" ++ name) (road_output img)]) ∧
    (main_run fs).1 = 0 ∧
    countWrites (main_run fs).2 =
      2 * fs.jpgNames.countP (fun n => (fs.imread n).isSome) ∧
    countWarns (main_run fs).2 =
      fs.jpgNames.countP (fun n => (fs.imread n).isNone) := by
  refine ⟨?_, ?_, ?_, (main_run_counts fs hex).1, (main_run_counts fs hex).2⟩
  · intro name hnone
    simp [process_image, hnone]
  · intro name img hsome
    simp [process_image, hsome]
  · rw [main_run_trace fs hex]

/-- C5 witness: on the sample world (one readable `.jpg`), the run
succeeds with exactly two writes and no warning. -/
theorem per_image_writes_and_warnings_witness :
    (main_run fsSample).1 = 0 ∧
    countWrites (main_run fsSample).2 = 2 ∧
    countWarns (main_run fsSample).2 = 0 := by
  have h := per_image_writes_and_warnings fsSample rfl
  exact ⟨h.2.2.1,
    by rw [h.2.2.2.1]; rfl,
    by rw [h.2.2.2.2]; rfl⟩

/-- C9 (implicit): `main` creates both output directories before testing
whether the input directory exists, so even a failing run (missing input
directory, status 1) has already created `output/lanes` and `output/roads`
— its trace begins with the two directory creations — while writing zero
output image files. -/
theorem mkdirs_precede_input_check (fs : FileSystem) :
    (main_run fs).2.take 2 =
      [Event.mkdirP "output/lanes", Event.mkdirP "output/roads"] ∧
    (fs.inputDirExists = false →
      (main_run fs).1 = 1 ∧ (main_run fs).2 = ensure_dirs ∧
      countWrites (main_run fs).2 = 0) := by
  constructor
  · cases hex : fs.inputDirExists
    · rw [main_run_nodir fs hex]
      rfl
    · rw [main_run_trace fs hex]
      rfl
  · intro hex
    rw [main_run_nodir fs hex]
    exact ⟨rfl, rfl, rfl⟩

/-- C9 witness: on the sample world with no input directory, the run
fails with status 1, its trace is exactly the two directory creations,
and it writes nothing. -/
theorem mkdirs_precede_input_check_witness :
    (main_run fsNoDir).2.take 2 =
      [Event.mkdirP "output/lanes", Event.mkdirP "output/roads"] ∧
    ((main_run fsNoDir).1 = 1 ∧ (main_run fsNoDir).2 = ensure_dirs ∧
      countWrites (main_run fsNoDir).2 = 0) :=
  ⟨(mkdirs_precede_input_check fsNoDir).1,
   (mkdirs_precede_input_check fsNoDir).2 rfl⟩

end Segmentation
